import Mathlib

/-!
Verification of the behavioral contract of `app.py` (a small Flask web app
that fetches Dune query results, previews them, and serves them as CSV).

The Python source is shallowly embedded: strings are `List Char`, JSON
payloads are an inductive `Json` type, fallible Python expressions return
`Except PyErr`, and the two Flask handlers are modelled as pure functions
from their form inputs and a network oracle to an outcome value.
-/

namespace DuneApp

/-! ## Character classes used by `safe_csv_name` -/

/-- The character set kept by the regex `[^A-Za-z0-9._-]+` in
`safe_csv_name` (letters, digits, dot, underscore, dash). -/
def allowedC (c : Char) : Bool :=
  c.isAlpha || c.isDigit || c == '.' || c == '_' || c == '-'

/-- ASCII whitespace removed by Python's `str.strip()`. -/
def spaceC (c : Char) : Bool :=
  c == ' ' || c == '\t' || c == '\n' || c == '\r' ||
  c == Char.ofNat 11 || c == Char.ofNat 12

/-- Python `str.strip()` on a character list: drop whitespace at both ends. -/
def pyStripL (l : List Char) : List Char :=
  ((l.dropWhile spaceC).reverse.dropWhile spaceC).reverse

/-- Python `str.strip()` on a `String`. -/
def pyStripS (s : String) : String :=
  String.mk (pyStripL s.data)

/-- `re.sub(r'[^A-Za-z0-9._-]+', '_', name)`: every maximal run of
disallowed characters becomes a single underscore.  The boolean flag
records whether the previous character was part of a disallowed run. -/
def collapse : Bool → List Char → List Char
  | _, [] => []
  | prevBad, c :: rest =>
    if allowedC c then c :: collapse false rest
    else if prevBad then collapse true rest
    else '_' :: collapse true rest

/-- The four characters of the literal suffix `".csv"`. -/
def csvSfx : List Char := ['.', 'c', 's', 'v']

/-- Python `cleaned.lower().endswith(".csv")`. -/
def lowEndsCsv (l : List Char) : Bool :=
  List.isSuffixOf csvSfx (l.map Char.toLower)

/-- `safe_csv_name` from `app.py` (lines 30-41), on character lists:
strip, collapse disallowed runs to `_`, truncate to 100 chars, replace
`""`/`"."`/`".."` by the fallback, and append `".csv"` unless the
lowercase form already ends with it. -/
def safeCsvName (name fallback : List Char) : List Char :=
  let stripped := pyStripL name
  let cleaned := (collapse false stripped).take 100
  let cleaned2 :=
    if cleaned = [] ∨ cleaned = ['.'] ∨ cleaned = ['.', '.'] then fallback
    else cleaned
  if lowEndsCsv cleaned2 then cleaned2 else cleaned2 ++ csvSfx

/-! ### Basic lemmas about the sanitizer -/

theorem collapse_allowed (b : Bool) (l : List Char) :
    ∀ c ∈ collapse b l, allowedC c = true := by
  induction l generalizing b with
  | nil => intro c hc; simp [collapse] at hc
  | cons x xs ih =>
    intro c hc
    by_cases hx : allowedC x = true
    · rw [show collapse b (x :: xs) = x :: collapse false xs by
        simp [collapse, hx]] at hc
      rcases List.mem_cons.mp hc with hc | hc
      · rw [hc]; exact hx
      · exact ih false c hc
    · cases b with
      | true =>
        rw [show collapse true (x :: xs) = collapse true xs by
          simp [collapse, hx]] at hc
        exact ih true c hc
      | false =>
        rw [show collapse false (x :: xs) = '_' :: collapse true xs by
          simp [collapse, hx]] at hc
        rcases List.mem_cons.mp hc with hc | hc
        · rw [hc]; decide
        · exact ih true c hc

theorem collapse_self (l : List Char) (h : ∀ c ∈ l, allowedC c = true) :
    collapse false l = l := by
  induction l with
  | nil => rfl
  | cons x xs ih =>
    have hx : allowedC x = true := h x (by simp)
    simp only [collapse, hx, if_pos, List.cons.injEq, true_and]
    exact ih fun c hc => h c (by simp [hc])

theorem space_not_allowed (c : Char) (h : spaceC c = true) :
    allowedC c = false := by
  simp only [spaceC, Bool.or_eq_true, beq_iff_eq] at h
  rcases h with ((((h | h) | h) | h) | h) | h <;> subst h <;> decide

theorem dropWhile_eq_self_of_all {p : Char → Bool} (l : List Char)
    (h : ∀ c ∈ l, p c = false) : l.dropWhile p = l := by
  cases l with
  | nil => rfl
  | cons x xs =>
    have hx : p x = false := h x (by simp)
    simp [List.dropWhile, hx]

theorem pyStripL_self (l : List Char) (h : ∀ c ∈ l, allowedC c = true) :
    pyStripL l = l := by
  have hns : ∀ c ∈ l, spaceC c = false := by
    intro c hc
    by_contra hcon
    have : spaceC c = true := by
      cases hsc : spaceC c
      · exact absurd hsc hcon
      · rfl
    have := space_not_allowed c this
    rw [h c hc] at this
    exact Bool.true_eq_false.mp this
  unfold pyStripL
  rw [dropWhile_eq_self_of_all l hns,
      dropWhile_eq_self_of_all l.reverse (fun c hc => hns c (List.mem_reverse.mp hc)),
      List.reverse_reverse]

theorem csvSfx_allowed : ∀ c ∈ csvSfx, allowedC c = true := by decide

theorem map_toLower_csvSfx : List.map Char.toLower csvSfx = csvSfx := by decide

theorem lowEnds_of_suffix (l : List Char) (h : csvSfx <:+ l) :
    lowEndsCsv l = true := by
  obtain ⟨t, ht⟩ := h
  subst ht
  unfold lowEndsCsv
  rw [List.isSuffixOf_iff_suffix, List.map_append, map_toLower_csvSfx]
  exact List.suffix_append _ _

theorem length4_of_lowEnds (l : List Char) (h : lowEndsCsv l = true) :
    4 ≤ l.length := by
  unfold lowEndsCsv at h
  rw [List.isSuffixOf_iff_suffix] at h
  have := h.length_le
  simpa using this

theorem ne_short_of_lowEnds (l : List Char) (h : lowEndsCsv l = true) :
    l ≠ [] ∧ l ≠ ['.'] ∧ l ≠ ['.', '.'] := by
  have h4 := length4_of_lowEnds l h
  refine ⟨?_, ?_, ?_⟩ <;> intro he <;> subst he <;> simp at h4

theorem cleanedPart_allowed (name : List Char) :
    ∀ c ∈ (collapse false (pyStripL name)).take 100, allowedC c = true :=
  fun c hc => collapse_allowed false _ c (List.take_subset _ _ hc)

theorem cleanedPart_len (name : List Char) :
    ((collapse false (pyStripL name)).take 100).length ≤ 100 := by
  rw [List.length_take]
  exact Nat.min_le_left _ _

theorem safeCsvName_cases (name fb : List Char) (hfb : lowEndsCsv fb = true) :
    safeCsvName name fb = fb ∨
    (safeCsvName name fb = (collapse false (pyStripL name)).take 100 ∧
      (collapse false (pyStripL name)).take 100 ≠ [] ∧
      (collapse false (pyStripL name)).take 100 ≠ ['.'] ∧
      (collapse false (pyStripL name)).take 100 ≠ ['.', '.'] ∧
      lowEndsCsv ((collapse false (pyStripL name)).take 100) = true) ∨
    (safeCsvName name fb = (collapse false (pyStripL name)).take 100 ++ csvSfx) := by
  simp only [safeCsvName]
  by_cases h1 : (collapse false (pyStripL name)).take 100 = [] ∨
      (collapse false (pyStripL name)).take 100 = ['.'] ∨
      (collapse false (pyStripL name)).take 100 = ['.', '.']
  · rw [if_pos h1, if_pos hfb]
    exact Or.inl rfl
  · rw [if_neg h1]
    push_neg at h1
    by_cases h2 : lowEndsCsv ((collapse false (pyStripL name)).take 100) = true
    · rw [if_pos h2]
      exact Or.inr (Or.inl ⟨rfl, h1.1, h1.2.1, h1.2.2, h2⟩)
    · rw [if_neg h2]
      exact Or.inr (Or.inr rfl)

/-! ### Claim theorems about the sanitizer -/

/-- C4 (amended): for every candidate name and every fallback that is
already safe (non-empty, allowed characters only, `.csv`-suffixed, length
at most 104), `safe_csv_name` is total and returns a non-empty string of
allowed characters whose lowercase form ends in `.csv` (the suffix check
of the code is case-insensitive, so the literal suffix may be `.CSV`
etc.), of length at most 104, and never `""`, `"."` or `".."`. -/
theorem sanitize_total_safety (name fb : List Char)
    (hfb2 : ∀ c ∈ fb, allowedC c = true)
    (hfb3 : csvSfx <:+ fb) (hfb4 : fb.length ≤ 104) :
    safeCsvName name fb ≠ [] ∧
    (∀ c ∈ safeCsvName name fb, allowedC c = true) ∧
    lowEndsCsv (safeCsvName name fb) = true ∧
    (safeCsvName name fb).length ≤ 104 ∧
    safeCsvName name fb ≠ ['.'] ∧ safeCsvName name fb ≠ ['.', '.'] := by
  have hfblow : lowEndsCsv fb = true := lowEnds_of_suffix fb hfb3
  rcases safeCsvName_cases name fb hfblow with heq | ⟨heq, h1, h2, h3, h4⟩ | heq
  · rw [heq]
    obtain ⟨hne, hd1, hd2⟩ := ne_short_of_lowEnds fb hfblow
    exact ⟨hne, hfb2, hfblow, hfb4, hd1, hd2⟩
  · rw [heq]
    exact ⟨h1, cleanedPart_allowed name, h4,
      le_trans (cleanedPart_len name) (by norm_num), h2, h3⟩
  · rw [heq]
    have hlow : lowEndsCsv ((collapse false (pyStripL name)).take 100 ++ csvSfx) = true :=
      lowEnds_of_suffix _ (List.suffix_append _ _)
    obtain ⟨hne, hd1, hd2⟩ := ne_short_of_lowEnds _ hlow
    refine ⟨hne, ?_, hlow, ?_, hd1, hd2⟩
    · intro c hc
      rcases List.mem_append.mp hc with hc | hc
      · exact cleanedPart_allowed name c hc
      · exact csvSfx_allowed c hc
    · rw [List.length_append]
      have := cleanedPart_len name
      simp only [csvSfx, List.length_cons, List.length_nil]
      omega

/-- Witness for C4: a concrete adversarial name with the fallback `f.csv`. -/
theorem sanitize_total_safety_witness :
    safeCsvName "My Report (final)!!".data "f.csv".data ≠ [] ∧
    (∀ c ∈ safeCsvName "My Report (final)!!".data "f.csv".data, allowedC c = true) ∧
    lowEndsCsv (safeCsvName "My Report (final)!!".data "f.csv".data) = true ∧
    (safeCsvName "My Report (final)!!".data "f.csv".data).length ≤ 104 ∧
    safeCsvName "My Report (final)!!".data "f.csv".data ≠ ['.'] ∧
    safeCsvName "My Report (final)!!".data "f.csv".data ≠ ['.', '.'] :=
  sanitize_total_safety "My Report (final)!!".data "f.csv".data
    (by decide) ⟨['f'], rfl⟩ (by decide)

/-- C4 counterexample: the claim as stated requires the output to end in
the literal `.csv`; for the input `"x.CSV"` the sanitizer returns
`"x.CSV"` unchanged, which does not end in `.csv`. -/
theorem sanitize_literal_suffix_counterexample :
    safeCsvName "x.CSV".data "f.csv".data = "x.CSV".data ∧
    List.isSuffixOf csvSfx "x.CSV".data = false := by
  exact ⟨rfl, rfl⟩

/-- C5: a non-empty candidate of length at most 100 made of allowed
characters and already ending in the literal `.csv` is returned
unchanged, whatever the fallback. -/
theorem sanitize_fixpoint (name fb : List Char) (_hne : name ≠ [])
    (hlen : name.length ≤ 100) (hall : ∀ c ∈ name, allowedC c = true)
    (hcsv : csvSfx <:+ name) :
    safeCsvName name fb = name := by
  have hlow : lowEndsCsv name = true := lowEnds_of_suffix name hcsv
  obtain ⟨h0, h1, h2⟩ := ne_short_of_lowEnds name hlow
  simp only [safeCsvName]
  rw [pyStripL_self name hall, collapse_self name hall,
    List.take_of_length_le hlen]
  have hcond : ¬(name = [] ∨ name = ['.'] ∨ name = ['.', '.']) := by
    push_neg
    exact ⟨h0, h1, h2⟩
  rw [if_neg hcond, if_pos hlow]

/-- Witness for C5 at a concrete already-safe name. -/
theorem sanitize_fixpoint_witness :
    safeCsvName "data_2024.csv".data "f.csv".data = "data_2024.csv".data :=
  sanitize_fixpoint "data_2024.csv".data "f.csv".data (by decide) (by decide)
    (by decide) ⟨"data_2024".data, rfl⟩

/-- C9: the empty and all-whitespace candidates map to the fallback
unchanged (for a `.csv`-suffixed fallback), and `"a/b*c"` with fallback
`"f.csv"` yields `"a_b_c.csv"`. -/
theorem sanitize_examples (fb : List Char) (hfb : csvSfx <:+ fb) :
    safeCsvName "".data fb = fb ∧
    safeCsvName "   ".data fb = fb ∧
    safeCsvName "a/b*c".data "f.csv".data = "a_b_c.csv".data := by
  have hlow : lowEndsCsv fb = true := lowEnds_of_suffix fb hfb
  refine ⟨?_, ?_, rfl⟩
  · simp only [safeCsvName]
    rw [show (collapse false (pyStripL "".data)).take 100 = [] from rfl]
    rw [if_pos (Or.inl rfl), if_pos hlow]
  · simp only [safeCsvName]
    rw [show (collapse false (pyStripL "   ".data)).take 100 = [] from rfl]
    rw [if_pos (Or.inl rfl), if_pos hlow]

/-- Witness for C9 with the concrete fallback `f.csv`. -/
theorem sanitize_examples_witness :
    safeCsvName "".data "f.csv".data = "f.csv".data ∧
    safeCsvName "   ".data "f.csv".data = "f.csv".data ∧
    safeCsvName "a/b*c".data "f.csv".data = "a_b_c.csv".data :=
  sanitize_examples "f.csv".data ⟨['f'], rfl⟩

/-! ## JSON values and Python-level operations -/

/-- Deserialized JSON, as produced by `resp.json()`.  Numbers are
modelled as integers (the claims only involve integral values); object
fields keep Python's dict insertion order. -/
inductive Json where
  | null : Json
  | bool : Bool → Json
  | num : Int → Json
  | str : String → Json
  | arr : List Json → Json
  | obj : List (String × Json) → Json

/-- Exceptions of the modelled Python fragments. -/
inductive PyErr where
  | keyError : String → PyErr
  | typeErr : PyErr
  | attrErr : PyErr
  | unsupported : PyErr
deriving DecidableEq

/-- Python dict lookup `d[k]`-style key search (dict keys are unique). -/
def pyLookup : List (String × Json) → String → Option Json
  | [], _ => none
  | (k, v) :: rest, key => if k = key then some v else pyLookup rest key

/-- Substring test, as in Python's `needle in haystack` for strings
(the empty needle is contained in everything). -/
def strIn (needle hay : List Char) : Bool :=
  if needle.isPrefixOf hay then true
  else match hay with
    | [] => false
    | _ :: t => strIn needle t

/-- Python's membership operator `needle in v` for a string needle:
key membership for dicts, substring for strings, element equality for
lists (only string elements can compare equal to a string), and a
`TypeError` for non-container values. -/
def pyContains (needle : String) (v : Json) : Except PyErr Bool :=
  match v with
  | .obj f => .ok (f.any fun kv => kv.1 == needle)
  | .str s => .ok (strIn needle.data s.data)
  | .arr xs => .ok (xs.any fun j => match j with | .str s => s == needle | _ => false)
  | _ => .error .typeErr

/-- Python subscript `v[k]` with a string key: dict lookup (raising
`KeyError` when absent), `TypeError` otherwise. -/
def pySubscript (v : Json) (k : String) : Except PyErr Json :=
  match v with
  | .obj f =>
    match pyLookup f k with
    | some x => .ok x
    | none => .error (.keyError k)
  | _ => .error .typeErr

/-- Python `v.get(k, dflt)`: only dicts have `.get`; anything else
raises `AttributeError`. -/
def pyGet (v : Json) (k : String) (dflt : Json) : Except PyErr Json :=
  match v with
  | .obj f => .ok ((pyLookup f k).getD dflt)
  | _ => .error .attrErr

/-- Interpret a list of JSON values as a list of strings. -/
def asStrListAux : List Json → Option (List String)
  | [] => some []
  | .str s :: rest => (asStrListAux rest).map (s :: ·)
  | _ => none

/-- Interpret a JSON value as the list of column names handed to
`pd.DataFrame(..., columns=...)`: it must be a list of strings. -/
def asStrList : Json → Option (List String)
  | .arr xs => asStrListAux xs
  | _ => none

/-- One DataFrame row built from a row object: the value of each column
key, `none` (NaN) when the key is missing. -/
def rowCells (r : Json) (cols : List String) : List (Option Json) :=
  match r with
  | .obj f => cols.map (pyLookup f)
  | _ => []

/-- `pd.DataFrame(rows, columns=cols)` applied to a list of row
objects: each row contributes the values of the given columns in
order.  Rows that are not dicts fall outside the modelled fragment. -/
def dfFromRows : List Json → List String → Except PyErr (List (List (Option Json)))
  | [], _ => .ok []
  | .obj f :: rest, cols =>
    match dfFromRows rest cols with
    | .ok t => .ok (cols.map (pyLookup f) :: t)
    | .error e => .error e
  | _, _ => .error .unsupported

/-- Append the keys of one row object to an accumulated column list,
keeping first-appearance order and dropping duplicates. -/
def addKeys (acc : List String) : List String → List String
  | [] => acc
  | k :: ks => addKeys (if acc.contains k then acc else acc ++ [k]) ks

/-- Column inference of `pd.DataFrame(rows)` from a list of row
objects: the union of their keys in first-appearance order. -/
def inferAux (acc : List String) : List Json → Except PyErr (List String)
  | [] => .ok acc
  | .obj f :: rest => inferAux (addKeys acc (f.map (·.1))) rest
  | _ => .error .unsupported

/-! ## Integer parsing and printing -/

/-- Decimal digits of a natural number (fuel-based so it reduces). -/
def natStrAux : Nat → Nat → List Char → List Char
  | 0, _, acc => acc
  | f + 1, n, acc =>
    if n = 0 then acc
    else natStrAux f (n / 10) (Char.ofNat (48 + n % 10) :: acc)

/-- Decimal rendering of a natural number, as in Python `str`. -/
def natStr (n : Nat) : List Char :=
  if n = 0 then ['0'] else natStrAux (n + 1) n []

/-- Decimal rendering of an integer, as in Python `str` / f-strings. -/
def intStr (i : Int) : List Char :=
  if i < 0 then '-' :: natStr i.natAbs else natStr i.natAbs

/-- Digits (with Python's optional underscores between digits) after the
first digit of an `int()` literal; accumulates the value. -/
def pyDigits : Nat → List Char → Option Nat
  | acc, [] => some acc
  | acc, '_' :: c :: rest =>
    if c.isDigit then pyDigits (acc * 10 + (c.toNat - 48)) rest else none
  | _, ['_'] => none
  | acc, c :: rest =>
    if c.isDigit then pyDigits (acc * 10 + (c.toNat - 48)) rest else none

/-- Python `int(s)`: strip whitespace, optional sign, then a non-empty
digit string (underscores allowed between digits); `none` models the
`ValueError` raised on anything else. -/
def pyInt (s : String) : Option Int :=
  match pyStripL s.data with
  | '+' :: c :: rest =>
    if c.isDigit then (pyDigits (c.toNat - 48) rest).map Int.ofNat else none
  | '-' :: c :: rest =>
    if c.isDigit then (pyDigits (c.toNat - 48) rest).map (fun n => -Int.ofNat n)
    else none
  | c :: rest =>
    if c.isDigit then (pyDigits (c.toNat - 48) rest).map Int.ofNat else none
  | [] => none

/-! ## The tabulation step of the Preview handler (app.py lines 78-84) -/

/-- Outcome of lines 78-84 of `fetch`: the malformed-shape page (which
keeps the raw payload), an uncaught exception, or the tabulated
DataFrame. -/
inductive FetchOutcome where
  | malformed : Json → FetchOutcome
  | crash : PyErr → FetchOutcome
  | table : List String → List (List (Option Json)) → FetchOutcome

/-- Lines 78-84 of `app.py`: the shape check
`not isinstance(data, dict) or "result" not in data or "rows" not in
data["result"]` (left to right, short-circuiting), then
`data["result"]["metadata"]["column_names"]`, `data["result"]["rows"]`,
and `pd.DataFrame(rows, columns=column_names)`. -/
def fetchParse (data : Json) : FetchOutcome :=
  match data with
  | .obj fields =>
    match pyLookup fields "result" with
    | none => .malformed data
    | some res =>
      match pyContains "rows" res with
      | .error e => .crash e
      | .ok false => .malformed data
      | .ok true =>
        match pySubscript res "metadata" with
        | .error e => .crash e
        | .ok meta =>
          match pySubscript meta "column_names" with
          | .error e => .crash e
          | .ok colJ =>
            match pySubscript res "rows" with
            | .error e => .crash e
            | .ok rowsJ =>
              match asStrList colJ, rowsJ with
              | some cols, .arr rows =>
                match dfFromRows rows cols with
                | .ok cells => .table cols cells
                | .error e => .crash e
              | _, _ => .crash .unsupported
  | _ => .malformed data

/-! ## The row extraction of the Download handler (app.py lines 119-120) -/

/-- Line 119 of `app.py`:
`rows = data.get("result", {}).get("rows", [])`. -/
def downloadRows (data : Json) : Except PyErr Json :=
  match pyGet data "result" (.obj []) with
  | .error e => .error e
  | .ok res =>
    match pyGet res "rows" (.arr []) with
    | .error e => .error e
    | .ok rows => .ok rows

/-- Line 120 of `app.py`: `pd.DataFrame(rows)` with no explicit column
list — columns are inferred from the row objects' keys in
first-appearance order. -/
def mkDfNoCols (rowsJ : Json) :
    Except PyErr (List String × List (List (Option Json))) :=
  match rowsJ with
  | .arr rows =>
    match inferAux [] rows with
    | .error e => .error e
    | .ok cols =>
      match dfFromRows rows cols with
      | .error e => .error e
      | .ok cells => .ok (cols, cells)
  | _ => .error .unsupported

/-! ## CSV serialization (`df.to_csv(index=False)`, RFC-4180 minimal quoting) -/

/-- The double-quote character. -/
def qc : Char := Char.ofNat 34

/-- A field needs quoting when it contains a comma, a double quote, a
newline or a carriage return (csv `QUOTE_MINIMAL`). -/
def needsQuote (f : List Char) : Bool :=
  f.any fun c => c == ',' || c == qc || c == '\n' || c == '\r'

/-- Double every double-quote character (CSV escaping inside quotes). -/
def doubleQ : List Char → List Char
  | [] => []
  | c :: cs => if c = qc then qc :: qc :: doubleQ cs else c :: doubleQ cs

/-- Serialize one field, quoting it when needed. -/
def csvEscape (f : List Char) : List Char :=
  if needsQuote f then qc :: (doubleQ f ++ [qc]) else f

/-- Join fields with commas. -/
def joinComma : List (List Char) → List Char
  | [] => []
  | [f] => f
  | f :: fs => f ++ ',' :: joinComma fs

/-- Serialize one record: comma-joined escaped fields plus a newline. -/
def csvRecord (fields : List (List Char)) : List Char :=
  joinComma (fields.map csvEscape) ++ ['\n']

/-- Join rendered items with `", "` (Python container repr). -/
def joinCommaSp : List (List Char) → List Char
  | [] => []
  | [f] => f
  | f :: fs => f ++ ", ".data ++ joinCommaSp fs

mutual

/-- Python `str()` of a JSON value (used only for nested values that
end up in DataFrame cells; scalar cells are rendered directly). -/
def pyRepr : Json → List Char
  | .null => "None".data
  | .bool true => "True".data
  | .bool false => "False".data
  | .num i => intStr i
  | .str s => Char.ofNat 39 :: s.data ++ [Char.ofNat 39]
  | .arr xs => Char.ofNat 91 :: joinCommaSp (pyReprArr xs) ++ [Char.ofNat 93]
  | .obj f => Char.ofNat 123 :: joinCommaSp (pyReprFields f) ++ [Char.ofNat 125]

/-- `str()` of each element of a JSON array. -/
def pyReprArr : List Json → List (List Char)
  | [] => []
  | x :: xs => pyRepr x :: pyReprArr xs

/-- `str()` of each key-value pair of a JSON object. -/
def pyReprFields : List (String × Json) → List (List Char)
  | [] => []
  | (k, v) :: fs =>
    (Char.ofNat 39 :: k.data ++ [Char.ofNat 39] ++ ": ".data ++ pyRepr v) ::
      pyReprFields fs

end

/-- How pandas `to_csv` renders a cell: missing values (NaN / None)
become the empty string, booleans `True`/`False`, numbers in decimal,
strings verbatim. -/
def renderCell : Option Json → List Char
  | none => []
  | some .null => []
  | some (.bool true) => "True".data
  | some (.bool false) => "False".data
  | some (.num i) => intStr i
  | some (.str s) => s.data
  | some v => pyRepr v

/-- The in-memory tabular result (ordered column names, ordered rows of
rendered values), the `Table` of the specification. -/
structure Table where
  cols : List String
  rows : List (List String)
deriving DecidableEq

/-- `to_csv_bytes` at the `Table` level: one header record followed by
one record per row (UTF-8 encoding is byte-level identity on the
character sequence). -/
def toCsvTable (t : Table) : List Char :=
  (((t.cols.map String.data) :: t.rows.map fun r => r.map String.data).map
    csvRecord).flatten

/-- `to_csv_bytes` from `app.py` line 26-27: the UTF-8 bytes of the
serialized table. -/
def toCsvBytes (t : Table) : ByteArray :=
  (String.mk (toCsvTable t)).toUTF8

/-- CSV serialization of a DataFrame (columns plus cell matrix), as
`to_csv(index=False)` produces it in the Download handler. -/
def toCsvDF (cols : List String) (cells : List (List (Option Json))) : List Char :=
  (((cols.map String.data) :: cells.map fun r => r.map renderCell).map
    csvRecord).flatten

/-! ## The two Flask handlers -/

/-- Result of `fetch_dune_data`: parsed JSON on 2xx, or one of the three
distinctly classified failures of lines 67-75. -/
inductive NetResult where
  | ok : Json → NetResult
  | httpError : Nat → String → NetResult
  | netErr : String → NetResult
  | exc : String → NetResult

/-- Observable outcome of a handler: a flash message plus redirect, the
results page showing raw JSON, the results page showing the table, an
uncaught exception, or a CSV file attachment. -/
inductive HandlerResult where
  | flashRedirect : String → String → HandlerResult
  | renderRaw : String → Json → HandlerResult
  | renderTable : List String → List (List (Option Json)) → Nat → List Char →
      HandlerResult
  | crash : PyErr → HandlerResult
  | file : List Char → List Char → HandlerResult

/-- Whether a handler outcome is an uncaught exception. -/
def isCrash : HandlerResult → Bool
  | .crash _ => true
  | _ => false

/-- Display string of a Python exception (for flash messages). -/
def pyErrStr : PyErr → String
  | .keyError k => "KeyError: " ++ k
  | .typeErr => "TypeError"
  | .attrErr => "AttributeError"
  | .unsupported => "Error"

/-- Decimal string of a natural number. -/
def natStrS (n : Nat) : String := String.mk (natStr n)

/-- `f"dune_query_{query_id}_{utc_ts}.csv"` (used as the suggested name
in `fetch` and the default name in `download`). -/
def dlDefaultName (qid : Int) (ts : String) : List Char :=
  "dune_query_".data ++ intStr qid ++ '_' :: ts.data ++ csvSfx

/-- The `/fetch` (Preview) handler, `app.py` lines 50-98, as a function
of its form inputs, a network oracle (the behavior of
`fetch_dune_data`), and the current timestamp.  The boolean records
whether the upstream call was made. -/
def fetchHandler (apiKey queryId : String) (net : Int → NetResult) (ts : String) :
    HandlerResult × Bool :=
  if pyStripS apiKey = "" then
    (.flashRedirect "Please enter your Dune API key." "warning", false)
  else
    match pyInt (pyStripS queryId) with
    | none => (.flashRedirect "Query ID must be a positive integer." "warning", false)
    | some qid =>
      match net qid with
      | .httpError st reason =>
        (.flashRedirect ("HTTP error: " ++ natStrS st ++ " " ++ reason) "danger", true)
      | .netErr m => (.flashRedirect ("Network error: " ++ m) "danger", true)
      | .exc m => (.flashRedirect ("Unexpected error: " ++ m) "danger", true)
      | .ok data =>
        match fetchParse data with
        | .malformed raw =>
          (.renderRaw "API response not in expected format. See raw JSON below."
            raw, true)
        | .crash e => (.crash e, true)
        | .table cols cells =>
          (.renderTable cols cells cells.length (dlDefaultName qid ts), true)

/-- The `/download` handler, `app.py` lines 101-137.  Parsing failures
of the query id fall back to `0`; `if not api_key or not query_id`
rejects only the empty key and the zero id; everything raised inside
the `try` (fetch, row extraction, DataFrame construction) becomes a
"Download failed" flash. -/
def downloadHandler (apiKey queryIdStr userName : String) (net : Int → NetResult)
    (ts : String) : HandlerResult × Bool :=
  let a := pyStripS apiKey
  let qid := (pyInt queryIdStr).getD 0
  if a = "" ∨ qid = 0 then
    (.flashRedirect "Missing API key or Query ID for download." "warning", false)
  else
    match net qid with
    | .httpError st reason =>
      (.flashRedirect ("Download failed: " ++ natStrS st ++ " " ++ reason)
        "danger", true)
    | .netErr m => (.flashRedirect ("Download failed: " ++ m) "danger", true)
    | .exc m => (.flashRedirect ("Download failed: " ++ m) "danger", true)
    | .ok data =>
      match downloadRows data with
      | .error e =>
        (.flashRedirect ("Download failed: " ++ pyErrStr e) "danger", true)
      | .ok rowsJ =>
        match mkDfNoCols rowsJ with
        | .error e =>
          (.flashRedirect ("Download failed: " ++ pyErrStr e) "danger", true)
        | .ok (cols, cells) =>
          (.file (toCsvDF cols cells)
            (safeCsvName userName.data (dlDefaultName qid ts)), true)

/-! ## An RFC-4180 CSV reader (for the round-trip law) -/

/-- Reader state: at the beginning of a field, inside an unquoted
field, inside a quoted field, or just after a quote inside a quoted
field. -/
inductive CsvMode where
  | start : CsvMode
  | raw : CsvMode
  | inQ : CsvMode
  | afterQ : CsvMode

/-- One-pass CSV reader over newline-terminated records.  `curF` is the
current field, `curR` the fields of the current record, `recs` the
completed records.  A blank line is one record with a single empty
field; input not ending in a record terminator, a stray quote in an
unquoted field, or an unterminated quoted field is a parse error. -/
def runCsv : CsvMode → List Char → List Char → List String →
    List (List String) → Option (List (List String))
  | .start, [], _, curR, recs => if curR = [] then some recs else none
  | .start, c :: rest, curF, curR, recs =>
    if c = qc then runCsv .inQ rest curF curR recs
    else if c = ',' then runCsv .start rest [] (curR ++ [String.mk curF]) recs
    else if c = '\n' then
      runCsv .start rest [] [] (recs ++ [curR ++ [String.mk curF]])
    else runCsv .raw rest (curF ++ [c]) curR recs
  | .raw, [], _, _, _ => none
  | .raw, c :: rest, curF, curR, recs =>
    if c = qc then none
    else if c = ',' then runCsv .start rest [] (curR ++ [String.mk curF]) recs
    else if c = '\n' then
      runCsv .start rest [] [] (recs ++ [curR ++ [String.mk curF]])
    else runCsv .raw rest (curF ++ [c]) curR recs
  | .inQ, [], _, _, _ => none
  | .inQ, c :: rest, curF, curR, recs =>
    if c = qc then runCsv .afterQ rest curF curR recs
    else runCsv .inQ rest (curF ++ [c]) curR recs
  | .afterQ, [], _, _, _ => none
  | .afterQ, c :: rest, curF, curR, recs =>
    if c = qc then runCsv .inQ rest (curF ++ [qc]) curR recs
    else if c = ',' then runCsv .start rest [] (curR ++ [String.mk curF]) recs
    else if c = '\n' then
      runCsv .start rest [] [] (recs ++ [curR ++ [String.mk curF]])
    else none

/-- Parse CSV text into a table: the first record is the header, the
remaining records are the rows. -/
def parseCsvChars (l : List Char) : Option Table :=
  match runCsv .start l [] [] [] with
  | some (h :: tl) => some ⟨h, tl⟩
  | _ => none

/-! ### Step equations of the reader -/

theorem run_start_nil (curF curR recs) :
    runCsv .start [] curF curR recs = if curR = [] then some recs else none := rfl

theorem run_start_cons (c : Char) (rest curF curR recs) :
    runCsv .start (c :: rest) curF curR recs =
      if c = qc then runCsv .inQ rest curF curR recs
      else if c = ',' then runCsv .start rest [] (curR ++ [String.mk curF]) recs
      else if c = '\n' then
        runCsv .start rest [] [] (recs ++ [curR ++ [String.mk curF]])
      else runCsv .raw rest (curF ++ [c]) curR recs := rfl

theorem run_raw_cons (c : Char) (rest curF curR recs) :
    runCsv .raw (c :: rest) curF curR recs =
      if c = qc then none
      else if c = ',' then runCsv .start rest [] (curR ++ [String.mk curF]) recs
      else if c = '\n' then
        runCsv .start rest [] [] (recs ++ [curR ++ [String.mk curF]])
      else runCsv .raw rest (curF ++ [c]) curR recs := rfl

theorem run_inQ_cons (c : Char) (rest curF curR recs) :
    runCsv .inQ (c :: rest) curF curR recs =
      if c = qc then runCsv .afterQ rest curF curR recs
      else runCsv .inQ rest (curF ++ [c]) curR recs := rfl

theorem run_afterQ_cons (c : Char) (rest curF curR recs) :
    runCsv .afterQ (c :: rest) curF curR recs =
      if c = qc then runCsv .inQ rest (curF ++ [qc]) curR recs
      else if c = ',' then runCsv .start rest [] (curR ++ [String.mk curF]) recs
      else if c = '\n' then
        runCsv .start rest [] [] (recs ++ [curR ++ [String.mk curF]])
      else none := rfl

theorem no_special_of_not_needsQuote (f : List Char) (h : needsQuote f = false) :
    ∀ c ∈ f, c ≠ ',' ∧ c ≠ qc ∧ c ≠ '\n' := by
  intro c hc
  unfold needsQuote at h
  rw [List.any_eq_false] at h
  have := h c hc
  simp only [Bool.or_eq_true, beq_iff_eq, not_or] at this
  exact ⟨this.1.1.1, this.1.1.2, this.1.2⟩

theorem run_raw_run (cs : List Char)
    (h : ∀ c ∈ cs, c ≠ ',' ∧ c ≠ qc ∧ c ≠ '\n') :
    ∀ rest curF curR recs,
      runCsv .raw (cs ++ rest) curF curR recs =
        runCsv .raw rest (curF ++ cs) curR recs := by
  induction cs with
  | nil => intro rest curF curR recs; simp
  | cons x xs ih =>
    intro rest curF curR recs
    obtain ⟨h1, h2, h3⟩ := h x (by simp)
    rw [List.cons_append, run_raw_cons, if_neg h2, if_neg h1, if_neg h3]
    rw [ih (fun c hc => h c (by simp [hc])) rest (curF ++ [x]) curR recs]
    simp

theorem run_inQ_run (cs : List Char) :
    ∀ rest curF curR recs,
      runCsv .inQ (doubleQ cs ++ qc :: rest) curF curR recs =
        runCsv .afterQ rest (curF ++ cs) curR recs := by
  induction cs with
  | nil =>
    intro rest curF curR recs
    rw [show doubleQ [] = [] from rfl, List.nil_append, run_inQ_cons, if_pos rfl]
    simp
  | cons x xs ih =>
    intro rest curF curR recs
    by_cases hx : x = qc
    · subst hx
      rw [show doubleQ (qc :: xs) = qc :: qc :: doubleQ xs from by
        simp [doubleQ]]
      rw [List.cons_append, List.cons_append, run_inQ_cons, if_pos rfl,
        run_afterQ_cons, if_pos rfl]
      rw [ih rest (curF ++ [qc]) curR recs]
      simp
    · rw [show doubleQ (x :: xs) = x :: doubleQ xs from by simp [doubleQ, hx]]
      rw [List.cons_append, run_inQ_cons, if_neg hx]
      rw [ih rest (curF ++ [x]) curR recs]
      simp

theorem run_field_comma (f : List Char) (rest : List Char) (curR recs) :
    runCsv .start (csvEscape f ++ ',' :: rest) [] curR recs =
      runCsv .start rest [] (curR ++ [String.mk f]) recs := by
  cases hq : needsQuote f with
  | true =>
    rw [show csvEscape f = qc :: (doubleQ f ++ [qc]) from by simp [csvEscape, hq]]
    rw [List.cons_append, run_start_cons, if_pos rfl, List.append_assoc,
      List.singleton_append]
    rw [run_inQ_run f (',' :: rest) [] curR recs]
    rw [run_afterQ_cons, if_neg (by decide), if_pos rfl, List.nil_append]
  | false =>
    cases f with
    | nil =>
      rw [show csvEscape [] = [] from rfl, List.nil_append, run_start_cons,
        if_neg (by decide), if_pos rfl]
    | cons x xs =>
      have hns := no_special_of_not_needsQuote _ hq
      obtain ⟨h1, h2, h3⟩ := hns x (by simp)
      rw [show csvEscape (x :: xs) = x :: xs from by simp [csvEscape, hq]]
      rw [List.cons_append, run_start_cons, if_neg h2, if_neg h1, if_neg h3]
      rw [run_raw_run xs (fun c hc => hns c (by simp [hc])) (',' :: rest)
        ([] ++ [x]) curR recs]
      rw [run_raw_cons, if_neg (by decide), if_pos rfl]
      simp

theorem run_field_nl (f : List Char) (rest : List Char) (curR recs) :
    runCsv .start (csvEscape f ++ '\n' :: rest) [] curR recs =
      runCsv .start rest [] [] (recs ++ [curR ++ [String.mk f]]) := by
  cases hq : needsQuote f with
  | true =>
    rw [show csvEscape f = qc :: (doubleQ f ++ [qc]) from by simp [csvEscape, hq]]
    rw [List.cons_append, run_start_cons, if_pos rfl, List.append_assoc,
      List.singleton_append]
    rw [run_inQ_run f ('\n' :: rest) [] curR recs]
    rw [run_afterQ_cons, if_neg (by decide), if_neg (by decide), if_pos rfl,
      List.nil_append]
  | false =>
    cases f with
    | nil =>
      rw [show csvEscape [] = [] from rfl, List.nil_append, run_start_cons,
        if_neg (by decide), if_neg (by decide), if_pos rfl]
    | cons x xs =>
      have hns := no_special_of_not_needsQuote _ hq
      obtain ⟨h1, h2, h3⟩ := hns x (by simp)
      rw [show csvEscape (x :: xs) = x :: xs from by simp [csvEscape, hq]]
      rw [List.cons_append, run_start_cons, if_neg h2, if_neg h1, if_neg h3]
      rw [run_raw_run xs (fun c hc => hns c (by simp [hc])) ('\n' :: rest)
        ([] ++ [x]) curR recs]
      rw [run_raw_cons, if_neg (by decide), if_neg (by decide), if_pos rfl]
      simp

theorem run_record (r : List (List Char)) (hr : r ≠ []) :
    ∀ rest curR recs,
      runCsv .start (joinComma (r.map csvEscape) ++ '\n' :: rest) [] curR recs =
        runCsv .start rest [] [] (recs ++ [curR ++ r.map String.mk]) := by
  induction r with
  | nil => exact absurd rfl hr
  | cons f r' ih =>
    intro rest curR recs
    cases r' with
    | nil =>
      rw [show joinComma ([f].map csvEscape) = csvEscape f from rfl]
      rw [run_field_nl]
      rfl
    | cons g r'' =>
      rw [show joinComma ((f :: g :: r'').map csvEscape) =
          csvEscape f ++ ',' :: joinComma ((g :: r'').map csvEscape) from rfl]
      rw [List.append_assoc, List.cons_append]
      rw [run_field_comma f (joinComma ((g :: r'').map csvEscape) ++ '\n' :: rest)
        curR recs]
      rw [ih (by simp) rest (curR ++ [String.mk f]) recs]
      simp

theorem run_records (rs : List (List (List Char))) (h : ∀ r ∈ rs, r ≠ []) :
    ∀ recs, runCsv .start ((rs.map csvRecord).flatten) [] [] recs =
      some (recs ++ rs.map (·.map String.mk)) := by
  induction rs with
  | nil => intro recs; simp [run_start_nil]
  | cons r rs' ih =>
    intro recs
    rw [List.map_cons, List.flatten_cons]
    rw [show csvRecord r = joinComma (r.map csvEscape) ++ ['\n'] from rfl]
    rw [List.append_assoc, List.singleton_append]
    rw [run_record r (h r (by simp)) _ [] recs]
    rw [ih (fun r hr => h r (by simp [hr])) (recs ++ [[] ++ r.map String.mk])]
    simp

theorem map_mk_data (l : List String) : (l.map String.data).map String.mk = l := by
  rw [List.map_map]
  have h : (String.mk ∘ String.data) = id := funext fun _ => rfl
  rw [h, List.map_id]

/-! ### Claim theorems about CSV serialization -/

/-- C7 (amended): for every well-formed table with at least one column
(each row as long as the column list), serializing with `to_csv` and
parsing the bytes back as RFC-4180 CSV reproduces the column order and
row values exactly, including values with embedded commas, quotes and
newlines.  (Without the at-least-one-column restriction the law fails:
the zero-column empty table and the table with one empty-named column
serialize to the same bytes.) -/
theorem csv_roundtrip (t : Table) (hc : t.cols ≠ [])
    (hr : ∀ r ∈ t.rows, r.length = t.cols.length) :
    parseCsvChars (toCsvTable t) = some t := by
  unfold parseCsvChars toCsvTable
  have hcl : 0 < t.cols.length := List.length_pos.mpr hc
  have hall : ∀ r ∈ (t.cols.map String.data) ::
      t.rows.map (fun r => r.map String.data), r ≠ [] := by
    intro r hrm
    rcases List.mem_cons.mp hrm with h | h
    · subst h
      simpa using hc
    · obtain ⟨r0, hr0, rfl⟩ := List.mem_map.mp h
      have hlen := hr r0 hr0
      intro hnil
      have : r0 = [] := by simpa using hnil
      rw [this] at hlen
      simp at hlen
      omega
  rw [run_records _ hall []]
  have hmap : ((t.cols.map String.data) ::
      t.rows.map fun r => r.map String.data).map (·.map String.mk) =
      t.cols :: t.rows := by
    rw [List.map_cons, map_mk_data, List.map_map]
    congr 1
    have : ∀ r ∈ t.rows,
        ((fun l => List.map String.mk l) ∘ fun r => r.map String.data) r = id r :=
      fun r _ => map_mk_data r
    rw [List.map_congr_left this, List.map_id]
  rw [List.nil_append, hmap]

/-- Witness for C7 at a table whose values contain commas, quotes and
newlines. -/
theorem csv_roundtrip_witness :
    parseCsvChars (toCsvTable ⟨["a", "b,c"],
      [["x", "say \"hi\""], ["1,2\n3", ""]]⟩) =
    some ⟨["a", "b,c"], [["x", "say \"hi\""], ["1,2\n3", ""]]⟩ :=
  csv_roundtrip ⟨["a", "b,c"], [["x", "say \"hi\""], ["1,2\n3", ""]]⟩
    (by decide) (by decide)

/-- C7 counterexample: the zero-column empty table and the table with a
single empty-named column are distinct well-formed tables with the same
serialization (one bare newline), so no parse can reproduce both; in
particular parsing the empty table's bytes does not return the empty
table. -/
theorem csv_roundtrip_counterexample :
    toCsvTable ⟨[], []⟩ = toCsvTable ⟨[""], []⟩ ∧
    (⟨[], []⟩ : Table) ≠ ⟨[""], []⟩ ∧
    parseCsvChars (toCsvTable ⟨[], []⟩) = some ⟨[""], []⟩ := by
  refine ⟨rfl, by decide, rfl⟩

/-! ### Helper lemmas about the Python operations -/

theorem any_key_of_lookup (f : List (String × Json)) (k : String) (v : Json)
    (h : pyLookup f k = some v) : (f.any fun kv => kv.1 == k) = true := by
  induction f with
  | nil => simp [pyLookup] at h
  | cons kv rest ih =>
    obtain ⟨k1, v1⟩ := kv
    by_cases hk : k1 = k
    · simp [List.any_cons, hk]
    · rw [show pyLookup ((k1, v1) :: rest) k = pyLookup rest k from by
        simp [pyLookup, hk]] at h
      simp [List.any_cons, ih h]

theorem any_key_of_lookup_none (f : List (String × Json)) (k : String)
    (h : pyLookup f k = none) : (f.any fun kv => kv.1 == k) = false := by
  induction f with
  | nil => rfl
  | cons kv rest ih =>
    obtain ⟨k1, v1⟩ := kv
    by_cases hk : k1 = k
    · rw [show pyLookup ((k1, v1) :: rest) k = some v1 from by
        simp [pyLookup, hk]] at h
      exact absurd h (by simp)
    · rw [show pyLookup ((k1, v1) :: rest) k = pyLookup rest k from by
        simp [pyLookup, hk]] at h
      simp [List.any_cons, ih h, hk]

theorem asStrListAux_map (cols : List String) :
    asStrListAux (cols.map Json.str) = some cols := by
  induction cols with
  | nil => rfl
  | cons c cs ih => simp [asStrListAux, ih]

theorem dfFromRows_ok (rows : List Json) (cols : List String)
    (h : ∀ r ∈ rows, ∃ g, r = .obj g) :
    dfFromRows rows cols = .ok (rows.map (rowCells · cols)) := by
  induction rows with
  | nil => rfl
  | cons r rest ih =>
    obtain ⟨g, rfl⟩ := h r (by simp)
    rw [show dfFromRows (.obj g :: rest) cols =
        match dfFromRows rest cols with
        | .ok t => .ok (cols.map (pyLookup g) :: t)
        | .error e => .error e from rfl]
    rw [ih fun r hr => h r (by simp [hr])]
    simp [rowCells]

/-- The Variant-B tabulation of the Preview handler: when the payload
has the full expected shape (dict with `result.rows`,
`result.metadata.column_names` a list of strings, rows a list of
dicts), the metadata column names are used verbatim, in order. -/
theorem fetchParse_table (f rf mf : List (String × Json)) (rows : List Json)
    (cols : List String)
    (hres : pyLookup f "result" = some (.obj rf))
    (hmeta : pyLookup rf "metadata" = some (.obj mf))
    (hcols : pyLookup mf "column_names" = some (.arr (cols.map Json.str)))
    (hrows : pyLookup rf "rows" = some (.arr rows))
    (hobj : ∀ r ∈ rows, ∃ g, r = .obj g) :
    fetchParse (.obj f) = .table cols (rows.map (rowCells · cols)) := by
  simp only [fetchParse, hres, pyContains, any_key_of_lookup rf "rows" _ hrows,
    pySubscript, hmeta, hcols, hrows, asStrList, asStrListAux_map cols,
    dfFromRows_ok rows cols hobj]

/-- When the payload passes the shape check but `result` has no
`metadata` key, line 82 raises an uncaught `KeyError`. -/
theorem fetchParse_missing_metadata (f rf : List (String × Json)) (rowsJ : Json)
    (hres : pyLookup f "result" = some (.obj rf))
    (hrows : pyLookup rf "rows" = some rowsJ)
    (hmeta : pyLookup rf "metadata" = none) :
    fetchParse (.obj f) = .crash (.keyError "metadata") := by
  simp only [fetchParse, hres, pyContains, any_key_of_lookup rf "rows" _ hrows,
    pySubscript, hmeta]

/-- The malformed shapes of the (amended) C6 claim: not a dict, or no
`result` key, or `result` a dict without a `rows` key. -/
def malShapeB (data : Json) : Bool :=
  match data with
  | .obj f =>
    match pyLookup f "result" with
    | none => true
    | some (.obj g) =>
      match pyLookup g "rows" with
      | none => true
      | some _ => false
    | some _ => false
  | _ => true

theorem fetchParse_malformed (data : Json) (h : malShapeB data = true) :
    fetchParse data = .malformed data := by
  cases data with
  | obj f =>
    cases hres : pyLookup f "result" with
    | none => simp only [fetchParse, hres]
    | some v =>
      cases v with
      | obj g =>
        cases hrows : pyLookup g "rows" with
        | none =>
          simp only [fetchParse, hres, pyContains,
            any_key_of_lookup_none g "rows" hrows]
        | some w => simp [malShapeB, hres, hrows] at h
      | null => simp [malShapeB, hres] at h
      | bool b => simp [malShapeB, hres] at h
      | num n => simp [malShapeB, hres] at h
      | str s => simp [malShapeB, hres] at h
      | arr xs => simp [malShapeB, hres] at h
  | null => rfl
  | bool b => rfl
  | num n => rfl
  | str s => rfl
  | arr xs => rfl

theorem downloadRows_of_lookup (f rf : List (String × Json)) (rowsJ : Json)
    (hres : pyLookup f "result" = some (.obj rf))
    (hrows : pyLookup rf "rows" = some rowsJ) :
    downloadRows (.obj f) = .ok rowsJ := by
  simp [downloadRows, pyGet, hres, hrows]

theorem downloadRows_default (f : List (String × Json))
    (h : pyLookup f "result" = none ∨
      ∃ g, pyLookup f "result" = some (.obj g) ∧ pyLookup g "rows" = none) :
    downloadRows (.obj f) = .ok (.arr []) := by
  rcases h with h | ⟨g, h1, h2⟩
  · simp [downloadRows, pyGet, h, pyLookup]
  · simp [downloadRows, pyGet, h1, h2]

/-! ### Claim theorems about the handlers -/

/-- C1 (amended): whenever the payload passes the shape check and
`result.metadata.column_names` is present (a list of strings, with the
rows a list of row objects), Preview tabulation uses the metadata
column names verbatim, in order; when `result` has no `metadata` key
there is no fallback to row-derived columns — line 82 raises an
uncaught `KeyError` instead. -/
theorem preview_columns_from_metadata :
    (∀ (f rf mf : List (String × Json)) (rows : List Json) (cols : List String),
      pyLookup f "result" = some (.obj rf) →
      pyLookup rf "metadata" = some (.obj mf) →
      pyLookup mf "column_names" = some (.arr (cols.map Json.str)) →
      pyLookup rf "rows" = some (.arr rows) →
      (∀ r ∈ rows, ∃ g, r = .obj g) →
      fetchParse (.obj f) = .table cols (rows.map (rowCells · cols))) ∧
    (∀ (f rf : List (String × Json)) (rowsJ : Json),
      pyLookup f "result" = some (.obj rf) →
      pyLookup rf "rows" = some rowsJ →
      pyLookup rf "metadata" = none →
      fetchParse (.obj f) = .crash (.keyError "metadata")) :=
  ⟨fetchParse_table, fun f rf rowsJ hres hrows hmeta =>
    fetchParse_missing_metadata f rf rowsJ hres hrows hmeta⟩

/-- Witness for C1: the specification's example payload
(`column_names = ["a","b"]`, rows `[{"b":2,"a":1}]`) yields columns
`["a","b"]` with first row `(a=1, b=2)`; and the same payload without
metadata makes the tabulation raise `KeyError("metadata")`. -/
theorem preview_columns_from_metadata_witness :
    fetchParse (.obj [("result", .obj [
        ("metadata", .obj [("column_names", .arr [.str "a", .str "b"])]),
        ("rows", .arr [.obj [("b", .num 2), ("a", .num 1)]])])]) =
      .table ["a", "b"] [[some (.num 1), some (.num 2)]] ∧
    fetchParse (.obj [("result", .obj [("rows", .arr [.obj [("a", .num 1)]])])]) =
      .crash (.keyError "metadata") :=
  ⟨preview_columns_from_metadata.1
      [("result", .obj [
        ("metadata", .obj [("column_names", .arr [.str "a", .str "b"])]),
        ("rows", .arr [.obj [("b", .num 2), ("a", .num 1)]])])]
      [("metadata", .obj [("column_names", .arr [.str "a", .str "b"])]),
        ("rows", .arr [.obj [("b", .num 2), ("a", .num 1)]])]
      [("column_names", .arr [.str "a", .str "b"])]
      [.obj [("b", .num 2), ("a", .num 1)]]
      ["a", "b"] rfl rfl rfl rfl
      (fun r hr => by
        rcases List.mem_singleton.mp hr with rfl
        exact ⟨[("b", .num 2), ("a", .num 1)], rfl⟩),
    preview_columns_from_metadata.2
      [("result", .obj [("rows", .arr [.obj [("a", .num 1)]])])]
      [("rows", .arr [.obj [("a", .num 1)]])]
      (.arr [.obj [("a", .num 1)]]) rfl rfl rfl⟩

/-- C1 counterexample: a payload that passes the shape check but lacks
`result.metadata` does not fall back to row-derived columns — the
Preview tabulation fails with an uncaught `KeyError`. -/
theorem preview_no_metadata_fallback_counterexample :
    fetchParse (.obj [("result", .obj [("rows", .arr [.obj [("a", .num 1)]])])]) =
      .crash (.keyError "metadata") := rfl

/-- C2 (amended): the Download handler never lets any exception escape
(its `try` block covers the re-fetch, row extraction and DataFrame
construction), and in the Preview handler every failure of the upstream
fetch itself (HTTP error, network error, any other exception) is caught
and surfaced as a flash message; but exceptions raised during Preview's
tabulation (lines 78-84, outside any `try`) are not caught. -/
theorem handlers_exception_boundary :
    (∀ (a q u ts : String) (net : Int → NetResult),
      isCrash (downloadHandler a q u net ts).1 = false) ∧
    (∀ (a q ts : String) (st : Nat) (r : String),
      isCrash (fetchHandler a q (fun _ => .httpError st r) ts).1 = false) ∧
    (∀ (a q ts m : String),
      isCrash (fetchHandler a q (fun _ => .netErr m) ts).1 = false) ∧
    (∀ (a q ts m : String),
      isCrash (fetchHandler a q (fun _ => .exc m) ts).1 = false) := by
  refine ⟨?_, ?_, ?_, ?_⟩
  · intro a q u ts net
    unfold downloadHandler
    dsimp only
    split
    · rfl
    · split <;> try rfl
      split <;> try rfl
      split <;> rfl
  · intro a q ts st r
    unfold fetchHandler
    split
    · rfl
    · split <;> rfl
  · intro a q ts m
    unfold fetchHandler
    split
    · rfl
    · split <;> rfl
  · intro a q ts m
    unfold fetchHandler
    split
    · rfl
    · split <;> rfl

/-- C2 counterexample: a successful fetch whose payload passes the
shape check but has no `result.metadata` makes the Preview handler
propagate an uncaught `KeyError` — the claim that no exception ever
escapes the handlers is false. -/
theorem preview_uncaught_exception_counterexample :
    fetchHandler "k" "1"
      (fun _ => .ok (.obj [("result", .obj [("rows", .arr [.obj [("a", .num 1)]])])]))
      "T" = (.crash (.keyError "metadata"), true) := rfl

/-- C3: the code's own validation message says the query id must be a
positive integer, but neither handler checks positivity: the input
`"-5"` parses, passes both guards, and the upstream call is made (here
with an oracle returning an empty JSON object; the Preview handler then
renders the malformed-payload page and the Download handler even
returns a CSV attachment). -/
theorem negative_query_id_reaches_network :
    fetchHandler "k" "-5" (fun _ => .ok (.obj [])) "T" =
      (.renderRaw "API response not in expected format. See raw JSON below."
        (.obj []), true) ∧
    downloadHandler "k" "-5" "" (fun _ => .ok (.obj [])) "T" =
      (.file ['\n'] "dune_query_-5_T.csv".data, true) := ⟨rfl, rfl⟩

/-- C6 (amended): for every payload that is not a dict, or lacks a
`result` key, or whose `result` is a dict lacking a `rows` key, the
Preview handler flashes the malformed-response error and renders the
page with the original raw payload still attached for diagnostics.
(When `result` is a number, boolean or null, the membership test
`"rows" not in data["result"]` itself raises an uncaught `TypeError`
instead — see the counterexample.) -/
theorem preview_malformed_keeps_payload (a q ts : String) (n : Int) (data : Json)
    (ha : pyStripS a ≠ "") (hq : pyInt (pyStripS q) = some n)
    (hm : malShapeB data = true) :
    fetchHandler a q (fun _ => .ok data) ts =
      (.renderRaw "API response not in expected format. See raw JSON below."
        data, true) := by
  unfold fetchHandler
  rw [if_neg ha]
  simp only [hq, fetchParse_malformed data hm]

/-- Witness for C6: a bare number payload is rejected as malformed and
the raw payload is kept. -/
theorem preview_malformed_keeps_payload_witness :
    fetchHandler "k" "1" (fun _ => .ok (.num 3)) "T" =
      (.renderRaw "API response not in expected format. See raw JSON below."
        (.num 3), true) :=
  preview_malformed_keeps_payload "k" "1" "T" 1 (.num 3) (by decide) rfl rfl

/-- C6 counterexample: when `result` is present but is a number, the
shape check itself raises `TypeError` (Python `in` on an `int`), so the
Preview operation crashes instead of failing with the malformed-response
page. -/
theorem preview_malformed_crash_counterexample :
    fetchParse (.obj [("result", .num 5)]) = .crash .typeErr ∧
    fetchHandler "k" "1" (fun _ => .ok (.obj [("result", .num 5)])) "T" =
      (.crash .typeErr, true) := ⟨rfl, rfl⟩

/-- C8 (amended): Preview derives columns from
`result.metadata.column_names` (Variant B) while Download infers them
from the row objects' keys in first-appearance order (Variant A); the
two operations produce identical column lists and cell values exactly
when the inferred order coincides with the metadata list (and differ
otherwise — see the counterexample). -/
theorem preview_download_columns_agree (f rf mf : List (String × Json))
    (rows : List Json) (cols : List String)
    (hres : pyLookup f "result" = some (.obj rf))
    (hmeta : pyLookup rf "metadata" = some (.obj mf))
    (hcols : pyLookup mf "column_names" = some (.arr (cols.map Json.str)))
    (hrows : pyLookup rf "rows" = some (.arr rows))
    (hobj : ∀ r ∈ rows, ∃ g, r = .obj g)
    (hinf : inferAux [] rows = .ok cols) :
    fetchParse (.obj f) = .table cols (rows.map (rowCells · cols)) ∧
    downloadRows (.obj f) = .ok (.arr rows) ∧
    mkDfNoCols (.arr rows) = .ok (cols, rows.map (rowCells · cols)) := by
  refine ⟨fetchParse_table f rf mf rows cols hres hmeta hcols hrows hobj,
    downloadRows_of_lookup f rf (.arr rows) hres hrows, ?_⟩
  simp only [mkDfNoCols, hinf, dfFromRows_ok rows cols hobj]

/-- Witness for C8 on a payload whose metadata order matches the row
key order: both operations produce columns `["a","b"]` and the same
cells. -/
theorem preview_download_columns_agree_witness :
    fetchParse (.obj [("result", .obj [
        ("metadata", .obj [("column_names", .arr [.str "a", .str "b"])]),
        ("rows", .arr [.obj [("a", .num 1), ("b", .num 2)]])])]) =
      .table ["a", "b"] [[some (.num 1), some (.num 2)]] ∧
    downloadRows (.obj [("result", .obj [
        ("metadata", .obj [("column_names", .arr [.str "a", .str "b"])]),
        ("rows", .arr [.obj [("a", .num 1), ("b", .num 2)]])])]) =
      .ok (.arr [.obj [("a", .num 1), ("b", .num 2)]]) ∧
    mkDfNoCols (.arr [.obj [("a", .num 1), ("b", .num 2)]]) =
      .ok (["a", "b"], [[some (.num 1), some (.num 2)]]) :=
  preview_download_columns_agree
    [("result", .obj [
      ("metadata", .obj [("column_names", .arr [.str "a", .str "b"])]),
      ("rows", .arr [.obj [("a", .num 1), ("b", .num 2)]])])]
    [("metadata", .obj [("column_names", .arr [.str "a", .str "b"])]),
      ("rows", .arr [.obj [("a", .num 1), ("b", .num 2)]])]
    [("column_names", .arr [.str "a", .str "b"])]
    [.obj [("a", .num 1), ("b", .num 2)]]
    ["a", "b"] rfl rfl rfl rfl
    (fun r hr => by
      rcases List.mem_singleton.mp hr with rfl
      exact ⟨[("a", .num 1), ("b", .num 2)], rfl⟩)
    rfl

/-- C8 counterexample: on the payload with
`column_names = ["a","b"]` and rows `[{"b":2,"a":1}]`, Preview tabulates
columns `["a","b"]` but Download's `pd.DataFrame(rows)` infers
`["b","a"]` — the two operations do not apply the same
column-derivation rule. -/
theorem preview_download_columns_differ_counterexample :
    fetchParse (.obj [("result", .obj [
        ("metadata", .obj [("column_names", .arr [.str "a", .str "b"])]),
        ("rows", .arr [.obj [("b", .num 2), ("a", .num 1)]])])]) =
      .table ["a", "b"] [[some (.num 1), some (.num 2)]] ∧
    downloadRows (.obj [("result", .obj [
        ("metadata", .obj [("column_names", .arr [.str "a", .str "b"])]),
        ("rows", .arr [.obj [("b", .num 2), ("a", .num 1)]])])]) =
      .ok (.arr [.obj [("b", .num 2), ("a", .num 1)]]) ∧
    mkDfNoCols (.arr [.obj [("b", .num 2), ("a", .num 1)]]) =
      .ok (["b", "a"], [[some (.num 2), some (.num 1)]]) ∧
    (["a", "b"] : List String) ≠ ["b", "a"] := ⟨rfl, rfl, rfl, by decide⟩

/-- C10 (amended): for every dict payload in which `result` is absent,
or `result` is a dict without a `rows` key, the Download handler
surfaces no error: it substitutes an empty row list and returns a file
attachment whose CSV body is a single newline — the empty header line
of a zero-column DataFrame — rather than empty bytes.  (When `result`
is present but is not a dict, `.get` raises and the handler flashes a
"Download failed" error instead.) -/
theorem download_missing_fields_empty_csv (a q u ts : String) (n : Int)
    (f : List (String × Json))
    (ha : pyStripS a ≠ "") (hq : pyInt q = some n) (hn : n ≠ 0)
    (h : pyLookup f "result" = none ∨
      ∃ g, pyLookup f "result" = some (.obj g) ∧ pyLookup g "rows" = none) :
    downloadHandler a q u (fun _ => .ok (.obj f)) ts =
      (.file ['\n'] (safeCsvName u.data (dlDefaultName n ts)), true) := by
  have hrows : downloadRows (.obj f) = .ok (.arr []) := downloadRows_default f h
  unfold downloadHandler
  dsimp only
  rw [hq]
  rw [show (some n).getD 0 = n from rfl]
  rw [if_neg (by push_neg; exact ⟨ha, hn⟩)]
  simp only [hrows]
  rfl

/-- Witness for C10: an empty-object payload on a download for query 7. -/
theorem download_missing_fields_empty_csv_witness :
    downloadHandler "k" "7" "" (fun _ => .ok (.obj [])) "T" =
      (.file ['\n'] (safeCsvName "".data (dlDefaultName 7 "T")), true) :=
  download_missing_fields_empty_csv "k" "7" "" "T" 7 [] (by decide) rfl
    (by decide) (Or.inl rfl)

/-- C10 counterexample: the claim says the CSV body is empty, but for a
payload with no `result` the attachment body is the single newline
written for the empty header row, not the empty byte string. -/
theorem download_empty_body_counterexample :
    downloadHandler "k" "7" "" (fun _ => .ok (.obj [])) "T" =
      (.file ['\n'] "dune_query_7_T.csv".data, true) ∧
    (['\n'] : List Char) ≠ [] := ⟨rfl, by decide⟩
